import Mathlib

/-!
Verification of the conversational-analytics sync pipeline (`main.go`).

The Go program decodes JSON into `map[string]any` / `[]any` trees; we embed
those trees as the inductive `JVal`, with objects represented as association
lists (Go maps decoded from JSON have unique keys, and the lookup / delete /
update operations below behave exactly like the Go map operations on such
objects).  `PruneAgentMessages` and the pipeline functions (`processUser`,
`getConversationDetail`, `insertToBigQuery`, `runSync`) are transcribed from
`main.go`; network calls are supplied by an explicit environment record.
The worker pool of `runSync` (lines 232-266 of `main.go`) is modelled twice:
the aggregate content of a run is computed with the principals processed in
discovery order (the channel delivery order only permutes batches, which the
proved properties do not depend on), and the pool's scheduling itself is
modelled by the small-step relation `PoolStep` below.
-/

namespace CAObs

/-- A decoded JSON value, as produced by Go's `json.Unmarshal` into `any`:
`null`, booleans, numbers, strings, `[]any` and `map[string]any`.
(Numeric payloads are opaque to all code modelled here, so the exact
numeric representation is irrelevant; we use `Int`.) -/
inductive JVal where
  | null : JVal
  | bool : Bool → JVal
  | num : Int → JVal
  | str : String → JVal
  | arr : List JVal → JVal
  | obj : List (String × JVal) → JVal

/-- A Go `map[string]any` decoded from JSON: an association list with
unique keys. -/
abbrev Obj := List (String × JVal)

/-- `m[k]` on a Go map: the value at key `k`, if present. -/
def getKey : Obj → String → Option JVal
  | [], _ => none
  | (k', v) :: rest, k => if k' = k then some v else getKey rest k

/-- `delete(m, k)` on a Go map: remove the binding at key `k`. -/
def delKey : Obj → String → Obj
  | [], _ => []
  | (k', v) :: rest, k => if k' = k then delKey rest k else (k', v) :: delKey rest k

/-- `m[k] = v` on a Go map whose key `k` is already present:
replace the value bound at `k`.  (The pruning code only ever writes back a
value it just read and modified, so presence always holds at use sites.) -/
def setKey : Obj → String → JVal → Obj
  | [], _, _ => []
  | (k', v) :: rest, k, w =>
    if k' = k then (k, w) :: setKey rest k w else (k', v) :: setKey rest k w

/-- `x, ok := v.(map[string]any)`: view an optional value as an object. -/
def objOf : Option JVal → Option Obj
  | some (.obj x) => some x
  | _ => none

/-- `x, ok := m[k].(map[string]any)`: object-typed lookup. -/
def getObj (o : Obj) (k : String) : Option Obj :=
  objOf (getKey o k)

/-- `msg["type"] == "system"`: an `any`-typed comparison against the
string `"system"`, true exactly when the value is that string. -/
def isSystemType (fs : Obj) : Bool :=
  match getKey fs "type" with
  | some (.str s) => s = "system"
  | _ => false

/-- The common shape of the heavy-object pruning steps in
`PruneAgentMessages` (`main.go` lines 119-152): if key `key` holds an
object, rewrite that object with `f`; otherwise leave the map unchanged. -/
def editKey (key : String) (f : Obj → Obj) (s : Obj) : Obj :=
  match getObj s key with
  | some x => setKey s key (.obj (f x))
  | none => s

/-- Pruning of one element of a `query -> datasources` list
(`main.go` lines 140-144): drop the `schema` field of object elements. -/
def pruneDS (x : JVal) : JVal :=
  match x with
  | .obj m => .obj (delKey m "schema")
  | _ => x

/-- The nested `query -> datasources` handling inside the `data`
substructure pruning (`main.go` lines 138-146): if `query` holds an
object whose `datasources` is a list, prune `schema` from each element. -/
def dataQuery (d1 : Obj) : Obj :=
  match getObj d1 "query" with
  | some q =>
    match getKey q "datasources" with
    | some (.arr ds) =>
      setKey d1 "query" (.obj (setKey q "datasources" (.arr (ds.map pruneDS))))
    | _ => d1
  | none => d1

/-- The `data` substructure pruning (`main.go` lines 133-147): drop
`result` and `formattedData`, then handle `query -> datasources`. -/
def dataInner (d : Obj) : Obj :=
  dataQuery (delKey (delKey d "result") "formattedData")

/-- `delete(textObj, "thoughtSignature")` (`main.go` line 120). -/
def pruneTextF (t : Obj) : Obj := delKey t "thoughtSignature"

/-- Schema pruning (`main.go` lines 127-130). -/
def pruneSchemaF (sc : Obj) : Obj := delKey (delKey sc "result") "datasources"

/-- Chart pruning (`main.go` lines 150-152). -/
def pruneChartF (c : Obj) : Obj := delKey c "result"

/-- Pruning of a navigated `systemMessage` object (`main.go` lines
118-152): the nested text signature, the top-level signature, then the
`schema`, `data` and `chart` substructures, in program order. -/
def pruneSys (sys : Obj) : Obj :=
  editKey "chart" pruneChartF
    (editKey "data" dataInner
      (editKey "schema" pruneSchemaF
        (delKey (editKey "text" pruneTextF sys) "thoughtSignature")))

/-- The `debugInfo` handling for system messages (`main.go` lines
99-152): always drop `request`, then navigate
`response -> data -> systemMessage`; a missing or non-object segment
stops the pruning of this node. -/
def pruneDebugInfo (di : Obj) : Obj :=
  let di1 := delKey di "request"
  match getObj di1 "response" with
  | some resp =>
    match getObj resp "data" with
    | some rdata =>
      match getObj rdata "systemMessage" with
      | some sys =>
        setKey di1 "response"
          (.obj (setKey resp "data"
            (.obj (setKey rdata "systemMessage" (.obj (pruneSys sys))))))
      | none => di1
    | none => di1
  | none => di1

/-- The system-message branch over the nested `message` body
(`main.go` lines 94-103): drop the redundant top-level `systemMessage`,
then process an object-valued `debugInfo`. -/
def pruneSystemBody (body : Obj) : Obj :=
  let body1 := delKey body "systemMessage"
  match getObj body1 "debugInfo" with
  | some di => setKey body1 "debugInfo" (.obj (pruneDebugInfo di))
  | none => body1

/-- Processing of one element of the message list (`main.go` lines
75-153): non-objects and nodes without a nested object-valued `message`
pass through; user messages lose the body's `debugInfo`; system messages
go through `pruneSystemBody`; every other node is untouched. -/
def pruneNode (m : JVal) : JVal :=
  match m with
  | .obj fs =>
    match getObj fs "message" with
    | some body =>
      if (getKey body "userMessage").isSome then
        .obj (setKey fs "message" (.obj (delKey body "debugInfo")))
      else if isSystemType fs then
        .obj (setKey fs "message" (.obj (pruneSystemBody body)))
      else .obj fs
    | none => .obj fs
  | _ => m

/-- `PruneAgentMessages` (`main.go` lines 74-156).  The Go function
mutates each element's tree in place and returns the same slice; the
elements are independent trees, so this is the element-wise map. -/
def PruneAgentMessages (messages : List JVal) : List JVal :=
  messages.map pruneNode

/-! ### Laws of the map operations -/

theorem getKey_delKey_self (o : Obj) (k : String) : getKey (delKey o k) k = none := by
  induction o with
  | nil => rfl
  | cons p rest ih =>
    obtain ⟨k', v⟩ := p
    by_cases h : k' = k
    · simpa [delKey, h] using ih
    · simp [delKey, getKey, h, ih]

theorem getKey_delKey_ne (o : Obj) {k₁ k₂ : String} (h : k₁ ≠ k₂) :
    getKey (delKey o k₁) k₂ = getKey o k₂ := by
  induction o with
  | nil => rfl
  | cons p rest ih =>
    obtain ⟨k', v⟩ := p
    by_cases h1 : k' = k₁
    · subst h1; simp [delKey, getKey, h, ih]
    · by_cases h2 : k' = k₂
      · subst h2; simp [delKey, getKey, h1, ih]
      · simp [delKey, getKey, h1, h2, ih]

theorem delKey_delKey_self (o : Obj) (k : String) :
    delKey (delKey o k) k = delKey o k := by
  induction o with
  | nil => rfl
  | cons p rest ih =>
    obtain ⟨k', v⟩ := p
    by_cases h : k' = k <;> simp [delKey, h, ih]

theorem delKey_comm (o : Obj) (k₁ k₂ : String) :
    delKey (delKey o k₁) k₂ = delKey (delKey o k₂) k₁ := by
  induction o with
  | nil => rfl
  | cons p rest ih =>
    obtain ⟨k', v⟩ := p
    by_cases h1 : k' = k₁
    · subst h1
      by_cases h2 : k' = k₂
      · subst h2; simp [delKey, ih]
      · simp [delKey, h2, ih]
    · by_cases h2 : k' = k₂
      · subst h2; simp [delKey, h1, ih]
      · simp [delKey, h1, h2, ih]

theorem getKey_setKey_self (o : Obj) (k : String) (v : JVal) :
    getKey (setKey o k v) k = (getKey o k).map (fun _ => v) := by
  induction o with
  | nil => rfl
  | cons p rest ih =>
    obtain ⟨k', w⟩ := p
    by_cases h : k' = k <;> simp [setKey, getKey, h, ih]

theorem getKey_setKey_of_some {o : Obj} {k : String} {w : JVal} (v : JVal)
    (h : getKey o k = some w) : getKey (setKey o k v) k = some v := by
  rw [getKey_setKey_self, h]; rfl

theorem getKey_setKey_ne (o : Obj) {k₁ k₂ : String} (v : JVal) (h : k₁ ≠ k₂) :
    getKey (setKey o k₁ v) k₂ = getKey o k₂ := by
  induction o with
  | nil => rfl
  | cons p rest ih =>
    obtain ⟨k', w⟩ := p
    by_cases h1 : k' = k₁
    · subst h1; simp [setKey, getKey, h, ih]
    · by_cases h2 : k' = k₂
      · subst h2; simp [setKey, getKey, h1, Ne.symm h, ih]
      · simp [setKey, getKey, h1, h2, ih]

theorem setKey_setKey_self (o : Obj) (k : String) (v w : JVal) :
    setKey (setKey o k v) k w = setKey o k w := by
  induction o with
  | nil => rfl
  | cons p rest ih =>
    obtain ⟨k', u⟩ := p
    by_cases h : k' = k <;> simp [setKey, h, ih]

theorem setKey_comm (o : Obj) {k₁ k₂ : String} (v w : JVal) (h : k₁ ≠ k₂) :
    setKey (setKey o k₁ v) k₂ w = setKey (setKey o k₂ w) k₁ v := by
  induction o with
  | nil => rfl
  | cons p rest ih =>
    obtain ⟨k', u⟩ := p
    by_cases h1 : k' = k₁
    · have h2 : ¬ k' = k₂ := by rw [h1]; exact h
      simp [setKey, h1, h2, h, Ne.symm h, ih]
    · by_cases h2 : k' = k₂ <;> simp [setKey, h1, h2, h, Ne.symm h, ih]

theorem delKey_setKey_self (o : Obj) (k : String) (v : JVal) :
    delKey (setKey o k v) k = delKey o k := by
  induction o with
  | nil => rfl
  | cons p rest ih =>
    obtain ⟨k', u⟩ := p
    by_cases h : k' = k <;> simp [setKey, delKey, h, ih]

theorem delKey_setKey_ne (o : Obj) {k₁ k₂ : String} (v : JVal) (h : k₁ ≠ k₂) :
    delKey (setKey o k₁ v) k₂ = setKey (delKey o k₂) k₁ v := by
  induction o with
  | nil => rfl
  | cons p rest ih =>
    obtain ⟨k', u⟩ := p
    by_cases h1 : k' = k₁
    · subst h1; simp [setKey, delKey, h, ih]
    · by_cases h2 : k' = k₂
      · subst h2; simp [setKey, delKey, h1, Ne.symm h, ih]
      · simp [setKey, delKey, h1, h2, ih]

theorem getObj_delKey_ne (o : Obj) {k₁ k₂ : String} (h : k₁ ≠ k₂) :
    getObj (delKey o k₁) k₂ = getObj o k₂ := by
  unfold getObj; rw [getKey_delKey_ne o h]

theorem getObj_setKey_ne (o : Obj) {k₁ k₂ : String} (v : JVal) (h : k₁ ≠ k₂) :
    getObj (setKey o k₁ v) k₂ = getObj o k₂ := by
  unfold getObj; rw [getKey_setKey_ne o v h]

theorem getObj_setKey_of_some {o : Obj} {k : String} {w : JVal} (x : Obj)
    (h : getKey o k = some w) : getObj (setKey o k (.obj x)) k = some x := by
  unfold getObj; rw [getKey_setKey_of_some (.obj x) h]; rfl

theorem getKey_of_getObj_some {o : Obj} {k : String} {x : Obj}
    (h : getObj o k = some x) : getKey o k = some (.obj x) := by
  unfold getObj objOf at h
  rcases h' : getKey o k with _ | v
  · rw [h'] at h; exact absurd h (by simp)
  · rw [h'] at h
    cases v <;> simp_all

/-! ### Laws of the pruning steps -/

theorem editKey_of_some {s : Obj} {key : String} {x : Obj} (f : Obj → Obj)
    (h : getObj s key = some x) : editKey key f s = setKey s key (.obj (f x)) := by
  unfold editKey; rw [h]

theorem editKey_of_none {s : Obj} {key : String} (f : Obj → Obj)
    (h : getObj s key = none) : editKey key f s = s := by
  unfold editKey; rw [h]

theorem getKey_editKey_ne (key : String) (f : Obj → Obj) (s : Obj) {k : String}
    (h : key ≠ k) : getKey (editKey key f s) k = getKey s k := by
  unfold editKey
  cases hx : getObj s key with
  | none => rfl
  | some x => exact getKey_setKey_ne s _ h

theorem getObj_editKey_ne (key : String) (f : Obj → Obj) (s : Obj) {k : String}
    (h : key ≠ k) : getObj (editKey key f s) k = getObj s k := by
  unfold getObj; rw [getKey_editKey_ne key f s h]

theorem editKey_comm (key₁ key₂ : String) (f g : Obj → Obj) (s : Obj)
    (h : key₁ ≠ key₂) :
    editKey key₁ f (editKey key₂ g s) = editKey key₂ g (editKey key₁ f s) := by
  cases hx : getObj s key₁ with
  | none =>
    have hx₂ : getObj (editKey key₂ g s) key₁ = none := by
      rw [getObj_editKey_ne key₂ g s (Ne.symm h), hx]
    rw [editKey_of_none f hx₂, editKey_of_none f hx]
  | some x =>
    have hx₂ : getObj (editKey key₂ g s) key₁ = some x := by
      rw [getObj_editKey_ne key₂ g s (Ne.symm h), hx]
    cases hy : getObj s key₂ with
    | none =>
      have hy₂ : getObj (editKey key₁ f s) key₂ = none := by
        rw [getObj_editKey_ne key₁ f s h, hy]
      rw [editKey_of_none g hy, editKey_of_none g hy₂]
    | some y =>
      rw [editKey_of_some g hy, editKey_of_some f hx]
      have hx₃ : getObj (setKey s key₂ (.obj (g y))) key₁ = some x := by
        rw [getObj_setKey_ne s _ (Ne.symm h), hx]
      have hy₃ : getObj (setKey s key₁ (.obj (f x))) key₂ = some y := by
        rw [getObj_setKey_ne s _ h, hy]
      rw [editKey_of_some f hx₃, editKey_of_some g hy₃]
      exact setKey_comm s _ _ (Ne.symm h)

theorem editKey_idem (key : String) (f : Obj → Obj) (s : Obj)
    (hf : ∀ x, f (f x) = f x) :
    editKey key f (editKey key f s) = editKey key f s := by
  cases hx : getObj s key with
  | none => rw [editKey_of_none f hx, editKey_of_none f hx]
  | some x =>
    rw [editKey_of_some f hx]
    have hk : getKey s key = some (.obj x) := getKey_of_getObj_some hx
    have hx₂ : getObj (setKey s key (.obj (f x))) key = some (f x) :=
      getObj_setKey_of_some _ hk
    rw [editKey_of_some f hx₂, setKey_setKey_self, hf]

theorem editKey_delKey_comm (key k : String) (f : Obj → Obj) (s : Obj)
    (h : key ≠ k) :
    editKey key f (delKey s k) = delKey (editKey key f s) k := by
  cases hx : getObj s key with
  | none =>
    have hx₂ : getObj (delKey s k) key = none := by
      rw [getObj_delKey_ne s (Ne.symm h), hx]
    rw [editKey_of_none f hx₂, editKey_of_none f hx]
  | some x =>
    have hx₂ : getObj (delKey s k) key = some x := by
      rw [getObj_delKey_ne s (Ne.symm h), hx]
    rw [editKey_of_some f hx₂, editKey_of_some f hx, delKey_setKey_ne s _ h]

theorem pruneDS_idem (x : JVal) : pruneDS (pruneDS x) = pruneDS x := by
  cases x <;> simp [pruneDS, delKey_delKey_self]

theorem map_pruneDS_idem (ds : List JVal) :
    (ds.map pruneDS).map pruneDS = ds.map pruneDS := by
  induction ds with
  | nil => rfl
  | cons x rest ih => simp [pruneDS_idem, ih]

theorem dataQuery_of_arr {o q : Obj} {ds : List JVal}
    (hq : getObj o "query" = some q)
    (hds : getKey q "datasources" = some (.arr ds)) :
    dataQuery o
      = setKey o "query" (.obj (setKey q "datasources" (.arr (ds.map pruneDS)))) := by
  simp only [dataQuery, hq, hds]

theorem dataQuery_of_none {o : Obj} (hq : getObj o "query" = none) :
    dataQuery o = o := by
  simp only [dataQuery, hq]

theorem dataQuery_of_not_arr {o q : Obj} (hq : getObj o "query" = some q)
    (hds : ∀ ds, getKey q "datasources" ≠ some (.arr ds)) :
    dataQuery o = o := by
  simp only [dataQuery, hq]

theorem dataQuery_delKey_comm (k : String) (o : Obj) (h : k ≠ "query") :
    dataQuery (delKey o k) = delKey (dataQuery o) k := by
  cases hq : getObj o "query" with
  | none =>
    have hq₂ : getObj (delKey o k) "query" = none := by
      rw [getObj_delKey_ne o h, hq]
    rw [dataQuery_of_none hq₂, dataQuery_of_none hq]
  | some q =>
    have hq₂ : getObj (delKey o k) "query" = some q := by
      rw [getObj_delKey_ne o h, hq]
    rcases hds : getKey q "datasources" with _ | v
    · rw [dataQuery_of_not_arr hq₂ (by rw [hds]; intro ds hc; exact absurd hc (by simp)),
          dataQuery_of_not_arr hq (by rw [hds]; intro ds hc; exact absurd hc (by simp))]
    · cases v with
      | arr ds =>
        rw [dataQuery_of_arr hq₂ hds, dataQuery_of_arr hq hds,
            delKey_setKey_ne o _ (Ne.symm h)]
      | null =>
        rw [dataQuery_of_not_arr hq₂ (by rw [hds]; intro ds hc; exact absurd hc (by simp)),
            dataQuery_of_not_arr hq (by rw [hds]; intro ds hc; exact absurd hc (by simp))]
      | bool b =>
        rw [dataQuery_of_not_arr hq₂ (by rw [hds]; intro ds hc; exact absurd hc (by simp)),
            dataQuery_of_not_arr hq (by rw [hds]; intro ds hc; exact absurd hc (by simp))]
      | num n =>
        rw [dataQuery_of_not_arr hq₂ (by rw [hds]; intro ds hc; exact absurd hc (by simp)),
            dataQuery_of_not_arr hq (by rw [hds]; intro ds hc; exact absurd hc (by simp))]
      | str s' =>
        rw [dataQuery_of_not_arr hq₂ (by rw [hds]; intro ds hc; exact absurd hc (by simp)),
            dataQuery_of_not_arr hq (by rw [hds]; intro ds hc; exact absurd hc (by simp))]
      | obj m =>
        rw [dataQuery_of_not_arr hq₂ (by rw [hds]; intro ds hc; exact absurd hc (by simp)),
            dataQuery_of_not_arr hq (by rw [hds]; intro ds hc; exact absurd hc (by simp))]

theorem dataQuery_idem (o : Obj) : dataQuery (dataQuery o) = dataQuery o := by
  cases hq : getObj o "query" with
  | none => rw [dataQuery_of_none hq, dataQuery_of_none hq]
  | some q =>
    rcases hds : getKey q "datasources" with _ | v
    · rw [dataQuery_of_not_arr hq (by rw [hds]; intro ds hc; exact absurd hc (by simp)),
          dataQuery_of_not_arr hq (by rw [hds]; intro ds hc; exact absurd hc (by simp))]
    · cases v with
      | arr ds =>
        rw [dataQuery_of_arr hq hds]
        have hk : getKey o "query" = some (.obj q) := getKey_of_getObj_some hq
        have hq₂ : getObj
            (setKey o "query" (.obj (setKey q "datasources" (.arr (ds.map pruneDS)))))
            "query" = some (setKey q "datasources" (.arr (ds.map pruneDS))) :=
          getObj_setKey_of_some _ hk
        have hds₂ : getKey (setKey q "datasources" (.arr (ds.map pruneDS)))
            "datasources" = some (.arr (ds.map pruneDS)) :=
          getKey_setKey_of_some _ hds
        rw [dataQuery_of_arr hq₂ hds₂, map_pruneDS_idem, setKey_setKey_self,
            setKey_setKey_self]
      | null =>
        rw [dataQuery_of_not_arr hq (by rw [hds]; intro ds hc; exact absurd hc (by simp)),
            dataQuery_of_not_arr hq (by rw [hds]; intro ds hc; exact absurd hc (by simp))]
      | bool b =>
        rw [dataQuery_of_not_arr hq (by rw [hds]; intro ds hc; exact absurd hc (by simp)),
            dataQuery_of_not_arr hq (by rw [hds]; intro ds hc; exact absurd hc (by simp))]
      | num n =>
        rw [dataQuery_of_not_arr hq (by rw [hds]; intro ds hc; exact absurd hc (by simp)),
            dataQuery_of_not_arr hq (by rw [hds]; intro ds hc; exact absurd hc (by simp))]
      | str s' =>
        rw [dataQuery_of_not_arr hq (by rw [hds]; intro ds hc; exact absurd hc (by simp)),
            dataQuery_of_not_arr hq (by rw [hds]; intro ds hc; exact absurd hc (by simp))]
      | obj m =>
        rw [dataQuery_of_not_arr hq (by rw [hds]; intro ds hc; exact absurd hc (by simp)),
            dataQuery_of_not_arr hq (by rw [hds]; intro ds hc; exact absurd hc (by simp))]

theorem dataInner_idem (d : Obj) : dataInner (dataInner d) = dataInner d := by
  unfold dataInner
  have hr : delKey (delKey (delKey d "result") "formattedData") "result"
      = delKey (delKey d "result") "formattedData" := by
    rw [delKey_comm (delKey d "result") "formattedData" "result", delKey_delKey_self]
  rw [← dataQuery_delKey_comm "result" _ (by decide),
      ← dataQuery_delKey_comm "formattedData" _ (by decide),
      hr, delKey_delKey_self, dataQuery_idem]

theorem pruneTextF_idem (t : Obj) : pruneTextF (pruneTextF t) = pruneTextF t :=
  delKey_delKey_self t "thoughtSignature"

theorem pruneSchemaF_idem (sc : Obj) :
    pruneSchemaF (pruneSchemaF sc) = pruneSchemaF sc := by
  unfold pruneSchemaF
  rw [delKey_comm (delKey sc "result") "datasources" "result", delKey_delKey_self,
      delKey_delKey_self]

theorem pruneChartF_idem (c : Obj) : pruneChartF (pruneChartF c) = pruneChartF c :=
  delKey_delKey_self c "result"

theorem pruneSys_text_absorb (s : Obj) :
    editKey "text" pruneTextF (pruneSys s) = pruneSys s := by
  unfold pruneSys
  rw [editKey_comm "text" "chart" pruneTextF pruneChartF _ (by decide),
      editKey_comm "text" "data" pruneTextF dataInner _ (by decide),
      editKey_comm "text" "schema" pruneTextF pruneSchemaF _ (by decide),
      editKey_delKey_comm "text" "thoughtSignature" pruneTextF _ (by decide),
      editKey_idem "text" pruneTextF s pruneTextF_idem]

theorem pruneSys_ts_absorb (s : Obj) :
    delKey (pruneSys s) "thoughtSignature" = pruneSys s := by
  unfold pruneSys
  rw [← editKey_delKey_comm "chart" "thoughtSignature" pruneChartF _ (by decide),
      ← editKey_delKey_comm "data" "thoughtSignature" dataInner _ (by decide),
      ← editKey_delKey_comm "schema" "thoughtSignature" pruneSchemaF _ (by decide),
      delKey_delKey_self]

theorem pruneSys_schema_absorb (s : Obj) :
    editKey "schema" pruneSchemaF (pruneSys s) = pruneSys s := by
  unfold pruneSys
  rw [editKey_comm "schema" "chart" pruneSchemaF pruneChartF _ (by decide),
      editKey_comm "schema" "data" pruneSchemaF dataInner _ (by decide),
      editKey_idem "schema" pruneSchemaF _ pruneSchemaF_idem]

theorem pruneSys_data_absorb (s : Obj) :
    editKey "data" dataInner (pruneSys s) = pruneSys s := by
  unfold pruneSys
  rw [editKey_comm "data" "chart" dataInner pruneChartF _ (by decide),
      editKey_idem "data" dataInner _ dataInner_idem]

theorem pruneSys_chart_absorb (s : Obj) :
    editKey "chart" pruneChartF (pruneSys s) = pruneSys s := by
  unfold pruneSys
  rw [editKey_idem "chart" pruneChartF _ pruneChartF_idem]

theorem pruneSys_idem (s : Obj) : pruneSys (pruneSys s) = pruneSys s := by
  have h : pruneSys (pruneSys s)
      = editKey "chart" pruneChartF
          (editKey "data" dataInner
            (editKey "schema" pruneSchemaF
              (delKey (editKey "text" pruneTextF (pruneSys s)) "thoughtSignature"))) := rfl
  rw [h, pruneSys_text_absorb, pruneSys_ts_absorb, pruneSys_schema_absorb,
      pruneSys_data_absorb, pruneSys_chart_absorb]

theorem pruneDebugInfo_of_path {di resp rdata sys : Obj}
    (hr : getObj (delKey di "request") "response" = some resp)
    (hd : getObj resp "data" = some rdata)
    (hs : getObj rdata "systemMessage" = some sys) :
    pruneDebugInfo di
      = setKey (delKey di "request") "response"
          (.obj (setKey resp "data"
            (.obj (setKey rdata "systemMessage" (.obj (pruneSys sys)))))) := by
  simp only [pruneDebugInfo, hr, hd, hs]

theorem pruneDebugInfo_of_stop {di : Obj}
    (h : getObj (delKey di "request") "response" = none
       ∨ ∃ resp, getObj (delKey di "request") "response" = some resp
          ∧ (getObj resp "data" = none
             ∨ ∃ rdata, getObj resp "data" = some rdata
                ∧ getObj rdata "systemMessage" = none)) :
    pruneDebugInfo di = delKey di "request" := by
  rcases h with h | ⟨resp, hr, h | ⟨rdata, hd, hs⟩⟩
  · simp only [pruneDebugInfo, h]
  · simp only [pruneDebugInfo, hr, h]
  · simp only [pruneDebugInfo, hr, hd, hs]

theorem pruneDebugInfo_idem (di : Obj) :
    pruneDebugInfo (pruneDebugInfo di) = pruneDebugInfo di := by
  have hdel : ∀ o : Obj, delKey (delKey o "request") "request" = delKey o "request" :=
    fun o => delKey_delKey_self o "request"
  cases hr : getObj (delKey di "request") "response" with
  | none =>
    rw [pruneDebugInfo_of_stop (Or.inl hr),
        pruneDebugInfo_of_stop (Or.inl (show _ = none by rw [hdel di]; exact hr)),
        hdel di]
  | some resp =>
    have hrk : getKey (delKey di "request") "response" = some (.obj resp) :=
      getKey_of_getObj_some hr
    cases hd : getObj resp "data" with
    | none =>
      rw [pruneDebugInfo_of_stop (Or.inr ⟨resp, hr, Or.inl hd⟩),
          pruneDebugInfo_of_stop
            (Or.inr ⟨resp, show _ = some resp by rw [hdel di]; exact hr, Or.inl hd⟩),
          hdel di]
    | some rdata =>
      have hdk : getKey resp "data" = some (.obj rdata) := getKey_of_getObj_some hd
      cases hs : getObj rdata "systemMessage" with
      | none =>
        rw [pruneDebugInfo_of_stop (Or.inr ⟨resp, hr, Or.inr ⟨rdata, hd, hs⟩⟩),
            pruneDebugInfo_of_stop
              (Or.inr ⟨resp, show _ = some resp by rw [hdel di]; exact hr,
                Or.inr ⟨rdata, hd, hs⟩⟩),
            hdel di]
      | some sys =>
        have hsk : getKey rdata "systemMessage" = some (.obj sys) :=
          getKey_of_getObj_some hs
        rw [pruneDebugInfo_of_path hr hd hs]
        have hne : ("response" : String) ≠ "request" := by decide
        have h1 : delKey (setKey (delKey di "request") "response"
              (.obj (setKey resp "data"
                (.obj (setKey rdata "systemMessage" (.obj (pruneSys sys))))))) "request"
            = setKey (delKey di "request") "response"
              (.obj (setKey resp "data"
                (.obj (setKey rdata "systemMessage" (.obj (pruneSys sys)))))) := by
          rw [delKey_setKey_ne _ _ hne, hdel di]
        have hr2 : getObj (delKey (setKey (delKey di "request") "response"
              (.obj (setKey resp "data"
                (.obj (setKey rdata "systemMessage" (.obj (pruneSys sys))))))) "request")
              "response"
            = some (setKey resp "data"
                (.obj (setKey rdata "systemMessage" (.obj (pruneSys sys))))) := by
          rw [h1]; exact getObj_setKey_of_some _ hrk
        have hd2 : getObj (setKey resp "data"
              (.obj (setKey rdata "systemMessage" (.obj (pruneSys sys))))) "data"
            = some (setKey rdata "systemMessage" (.obj (pruneSys sys))) :=
          getObj_setKey_of_some _ hdk
        have hs2 : getObj (setKey rdata "systemMessage" (.obj (pruneSys sys)))
              "systemMessage" = some (pruneSys sys) :=
          getObj_setKey_of_some _ hsk
        rw [pruneDebugInfo_of_path hr2 hd2 hs2, h1, pruneSys_idem,
            setKey_setKey_self, setKey_setKey_self, setKey_setKey_self]

theorem pruneSystemBody_of_some {body di : Obj}
    (h : getObj (delKey body "systemMessage") "debugInfo" = some di) :
    pruneSystemBody body
      = setKey (delKey body "systemMessage") "debugInfo" (.obj (pruneDebugInfo di)) := by
  simp only [pruneSystemBody, h]

theorem pruneSystemBody_of_none {body : Obj}
    (h : getObj (delKey body "systemMessage") "debugInfo" = none) :
    pruneSystemBody body = delKey body "systemMessage" := by
  simp only [pruneSystemBody, h]

theorem pruneSystemBody_idem (body : Obj) :
    pruneSystemBody (pruneSystemBody body) = pruneSystemBody body := by
  have hdel : ∀ o : Obj,
      delKey (delKey o "systemMessage") "systemMessage" = delKey o "systemMessage" :=
    fun o => delKey_delKey_self o "systemMessage"
  cases h : getObj (delKey body "systemMessage") "debugInfo" with
  | none =>
    rw [pruneSystemBody_of_none h,
        pruneSystemBody_of_none (show _ = none by rw [hdel body]; exact h),
        hdel body]
  | some di =>
    have hk : getKey (delKey body "systemMessage") "debugInfo" = some (.obj di) :=
      getKey_of_getObj_some h
    rw [pruneSystemBody_of_some h]
    have hne : ("debugInfo" : String) ≠ "systemMessage" := by decide
    have h1 : delKey (setKey (delKey body "systemMessage") "debugInfo"
          (.obj (pruneDebugInfo di))) "systemMessage"
        = setKey (delKey body "systemMessage") "debugInfo" (.obj (pruneDebugInfo di)) := by
      rw [delKey_setKey_ne _ _ hne, hdel body]
    have h2 : getObj (delKey (setKey (delKey body "systemMessage") "debugInfo"
          (.obj (pruneDebugInfo di))) "systemMessage") "debugInfo"
        = some (pruneDebugInfo di) := by
      rw [h1]; exact getObj_setKey_of_some _ hk
    rw [pruneSystemBody_of_some h2, h1, pruneDebugInfo_idem, setKey_setKey_self]

theorem getKey_pruneSystemBody_ne (body : Obj) {k : String}
    (h1 : k ≠ "systemMessage") (h2 : k ≠ "debugInfo") :
    getKey (pruneSystemBody body) k = getKey body k := by
  cases h : getObj (delKey body "systemMessage") "debugInfo" with
  | none => rw [pruneSystemBody_of_none h, getKey_delKey_ne body (Ne.symm h1)]
  | some di =>
    rw [pruneSystemBody_of_some h, getKey_setKey_ne _ _ (Ne.symm h2),
        getKey_delKey_ne body (Ne.symm h1)]

theorem pruneNode_no_message {fs : Obj} (hm : getObj fs "message" = none) :
    pruneNode (.obj fs) = .obj fs := by
  simp only [pruneNode, hm]

theorem pruneNode_user {fs body : Obj} (hm : getObj fs "message" = some body)
    (hu : (getKey body "userMessage").isSome = true) :
    pruneNode (.obj fs) = .obj (setKey fs "message" (.obj (delKey body "debugInfo"))) := by
  simp only [pruneNode, hm, hu, if_true]

theorem pruneNode_system {fs body : Obj} (hm : getObj fs "message" = some body)
    (hu : (getKey body "userMessage").isSome = false)
    (ht : isSystemType fs = true) :
    pruneNode (.obj fs) = .obj (setKey fs "message" (.obj (pruneSystemBody body))) := by
  simp only [pruneNode, hm, hu, ht, Bool.false_eq_true, if_false, if_true]

theorem pruneNode_other {fs body : Obj} (hm : getObj fs "message" = some body)
    (hu : (getKey body "userMessage").isSome = false)
    (ht : isSystemType fs = false) :
    pruneNode (.obj fs) = .obj fs := by
  simp only [pruneNode, hm, hu, ht, Bool.false_eq_true, if_false]

theorem isSystemType_setKey_message (fs : Obj) (v : JVal) :
    isSystemType (setKey fs "message" v) = isSystemType fs := by
  unfold isSystemType
  rw [getKey_setKey_ne fs v (by decide)]

theorem pruneNode_idem (m : JVal) : pruneNode (pruneNode m) = pruneNode m := by
  cases m with
  | null => rfl
  | bool b => rfl
  | num n => rfl
  | str s => rfl
  | arr l => rfl
  | obj fs =>
    cases hm : getObj fs "message" with
    | none => rw [pruneNode_no_message hm, pruneNode_no_message hm]
    | some body =>
      have hmk : getKey fs "message" = some (.obj body) := getKey_of_getObj_some hm
      cases hu : (getKey body "userMessage").isSome with
      | true =>
        rw [pruneNode_user hm hu]
        have hm2 : getObj (setKey fs "message" (.obj (delKey body "debugInfo")))
            "message" = some (delKey body "debugInfo") := getObj_setKey_of_some _ hmk
        have hu2 : (getKey (delKey body "debugInfo") "userMessage").isSome = true := by
          rw [getKey_delKey_ne body (by decide)]; exact hu
        rw [pruneNode_user hm2 hu2, delKey_delKey_self, setKey_setKey_self]
      | false =>
        cases ht : isSystemType fs with
        | false => rw [pruneNode_other hm hu ht, pruneNode_other hm hu ht]
        | true =>
          rw [pruneNode_system hm hu ht]
          have hm2 : getObj (setKey fs "message" (.obj (pruneSystemBody body)))
              "message" = some (pruneSystemBody body) := getObj_setKey_of_some _ hmk
          have hu2 : (getKey (pruneSystemBody body) "userMessage").isSome = false := by
            rw [getKey_pruneSystemBody_ne body (by decide) (by decide)]; exact hu
          have ht2 : isSystemType (setKey fs "message" (.obj (pruneSystemBody body)))
              = true := by
            rw [isSystemType_setKey_message]; exact ht
          rw [pruneNode_system hm2 hu2 ht2, pruneSystemBody_idem, setKey_setKey_self]

/-- C3: the Record Transform `PruneAgentMessages` is idempotent — for every
message list, applying the transform twice yields the same result as
applying it once. -/
theorem pruneAgentMessages_idempotent (messages : List JVal) :
    PruneAgentMessages (PruneAgentMessages messages) = PruneAgentMessages messages := by
  induction messages with
  | nil => rfl
  | cons m rest ih =>
    simp only [PruneAgentMessages, List.map_cons] at ih ⊢
    rw [pruneNode_idem, ih]

/-- Chained optional lookup along a path of object keys
(`JSON_VALUE`-style navigation, used to state where pruning acts). -/
def getPath? : JVal → List String → Option JVal
  | v, [] => some v
  | .obj fs, k :: rest =>
    match getKey fs k with
    | some w => getPath? w rest
    | none => none
  | _, _ :: _ => none

theorem getPath_cons {fs : Obj} {k : String} {w : JVal}
    (h : getKey fs k = some w) (rest : List String) :
    getPath? (.obj fs) (k :: rest) = getPath? w rest := by
  simp only [getPath?, h]

/-- C4: for every message node whose nested body contains the user-message
marker key `userMessage` and a debug-info field `debugInfo`, after the
transform the `debugInfo` field is absent from the body, and every other
field of the node and of its body is unchanged. -/
theorem pruneNode_user_frame {fs body : Obj} {uv dv : JVal}
    (hm : getObj fs "message" = some body)
    (hu : getKey body "userMessage" = some uv)
    (hd : getKey body "debugInfo" = some dv) :
    pruneNode (.obj fs) = .obj (setKey fs "message" (.obj (delKey body "debugInfo")))
    ∧ getKey (delKey body "debugInfo") "debugInfo" = none
    ∧ (∀ k, k ≠ "debugInfo" → getKey (delKey body "debugInfo") k = getKey body k)
    ∧ getKey (setKey fs "message" (.obj (delKey body "debugInfo"))) "message"
        = some (.obj (delKey body "debugInfo"))
    ∧ (∀ k, k ≠ "message" →
        getKey (setKey fs "message" (.obj (delKey body "debugInfo"))) k = getKey fs k) := by
  have hu' : (getKey body "userMessage").isSome = true := by rw [hu]; rfl
  refine ⟨pruneNode_user hm hu', getKey_delKey_self body _, ?_, ?_, ?_⟩
  · intro k hk; exact getKey_delKey_ne body (Ne.symm hk)
  · exact getKey_setKey_of_some _ (getKey_of_getObj_some hm)
  · intro k hk; exact getKey_setKey_ne fs _ (Ne.symm hk)

/-- Witness for C4 on a concrete user message carrying a `debugInfo`. -/
theorem pruneNode_user_frame_witness :
    pruneNode (.obj [("type", JVal.str "user"),
        ("message", JVal.obj [("userMessage", JVal.str "hi"),
          ("debugInfo", JVal.obj [("x", JVal.num 1)]), ("ts", JVal.num 2)])])
      = .obj [("type", JVal.str "user"),
          ("message", JVal.obj [("userMessage", JVal.str "hi"), ("ts", JVal.num 2)])] := by
  have h := @pruneNode_user_frame
    [("type", JVal.str "user"),
     ("message", JVal.obj [("userMessage", JVal.str "hi"),
       ("debugInfo", JVal.obj [("x", JVal.num 1)]), ("ts", JVal.num 2)])]
    [("userMessage", JVal.str "hi"),
     ("debugInfo", JVal.obj [("x", JVal.num 1)]), ("ts", JVal.num 2)]
    (JVal.str "hi") (JVal.obj [("x", JVal.num 1)]) rfl rfl rfl
  exact h.1.trans (by rfl)

theorem getKey_pruneSys_schema {sys sc : Obj} (h : getObj sys "schema" = some sc) :
    getKey (pruneSys sys) "schema" = some (.obj (pruneSchemaF sc)) := by
  unfold pruneSys
  rw [getKey_editKey_ne "chart" pruneChartF _ (by decide),
      getKey_editKey_ne "data" dataInner _ (by decide)]
  have hz : getObj (delKey (editKey "text" pruneTextF sys) "thoughtSignature")
      "schema" = some sc := by
    rw [getObj_delKey_ne _ (by decide), getObj_editKey_ne "text" pruneTextF sys (by decide)]
    exact h
  rw [editKey_of_some pruneSchemaF hz]
  exact getKey_setKey_of_some _ (getKey_of_getObj_some hz)

/-- C5: for every system-type message node whose path
`debugInfo -> response -> data -> systemMessage -> schema` is an object
containing `result` and `datasources` fields, after the transform both
fields are absent from that schema object while its sibling fields
remain present. -/
theorem pruneNode_system_schema {fs body di resp rdata sys sc : Obj} {rv dv : JVal}
    (hm : getObj fs "message" = some body)
    (hu : (getKey body "userMessage").isSome = false)
    (ht : isSystemType fs = true)
    (hdi : getObj body "debugInfo" = some di)
    (hr : getObj di "response" = some resp)
    (hd : getObj resp "data" = some rdata)
    (hs : getObj rdata "systemMessage" = some sys)
    (hsc : getObj sys "schema" = some sc)
    (hrv : getKey sc "result" = some rv)
    (hdv : getKey sc "datasources" = some dv) :
    getPath? (pruneNode (.obj fs))
        ["message", "debugInfo", "response", "data", "systemMessage", "schema"]
      = some (.obj (delKey (delKey sc "result") "datasources"))
    ∧ getKey (delKey (delKey sc "result") "datasources") "result" = none
    ∧ getKey (delKey (delKey sc "result") "datasources") "datasources" = none
    ∧ (∀ k, k ≠ "result" → k ≠ "datasources" →
        getKey (delKey (delKey sc "result") "datasources") k = getKey sc k) := by
  have hdi1 : getObj (delKey body "systemMessage") "debugInfo" = some di := by
    rw [getObj_delKey_ne body (by decide)]; exact hdi
  have hr1 : getObj (delKey di "request") "response" = some resp := by
    rw [getObj_delKey_ne di (by decide)]; exact hr
  have hmk : getKey fs "message" = some (.obj body) := getKey_of_getObj_some hm
  have hdk : getKey resp "data" = some (.obj rdata) := getKey_of_getObj_some hd
  have hsk : getKey rdata "systemMessage" = some (.obj sys) := getKey_of_getObj_some hs
  refine ⟨?_, ?_, getKey_delKey_self _ _, ?_⟩
  · rw [pruneNode_system hm hu ht,
        getPath_cons (getKey_setKey_of_some _ hmk) _]
    have h2 : getKey (pruneSystemBody body) "debugInfo"
        = some (.obj (pruneDebugInfo di)) := by
      rw [pruneSystemBody_of_some hdi1]
      exact getKey_setKey_of_some _ (getKey_of_getObj_some hdi1)
    rw [getPath_cons h2 _]
    have h3 : getKey (pruneDebugInfo di) "response"
        = some (.obj (setKey resp "data"
            (.obj (setKey rdata "systemMessage" (.obj (pruneSys sys)))))) := by
      rw [pruneDebugInfo_of_path hr1 hd hs]
      exact getKey_setKey_of_some _ (getKey_of_getObj_some hr1)
    rw [getPath_cons h3 _,
        getPath_cons (getKey_setKey_of_some _ hdk) _,
        getPath_cons (getKey_setKey_of_some _ hsk) _,
        getPath_cons (getKey_pruneSys_schema hsc) _]
    rfl
  · rw [getKey_delKey_ne _ (by decide)]
    exact getKey_delKey_self sc "result"
  · intro k hk1 hk2
    rw [getKey_delKey_ne _ (Ne.symm hk2), getKey_delKey_ne _ (Ne.symm hk1)]

/-- Witness for C5 on a concrete system message whose schema carries
`result`, `datasources` and a sibling `kind` discriminator. -/
theorem pruneNode_system_schema_witness :
    getPath? (pruneNode (.obj [("type", JVal.str "system"),
        ("message", JVal.obj [("debugInfo", JVal.obj [("response", JVal.obj
          [("data", JVal.obj [("systemMessage", JVal.obj [("schema", JVal.obj
            [("kind", JVal.str "schema"), ("result", JVal.str "big"),
             ("datasources", JVal.arr [])])])])])])])]))
        ["message", "debugInfo", "response", "data", "systemMessage", "schema"]
      = some (.obj [("kind", JVal.str "schema")])
    ∧ getKey ([("kind", JVal.str "schema")] : Obj) "result" = none
    ∧ getKey ([("kind", JVal.str "schema")] : Obj) "datasources" = none
    ∧ getKey ([("kind", JVal.str "schema"), ("result", JVal.str "big"),
        ("datasources", JVal.arr [])] : Obj) "kind" = some (JVal.str "schema") := by
  have h := @pruneNode_system_schema
    [("type", JVal.str "system"),
     ("message", JVal.obj [("debugInfo", JVal.obj [("response", JVal.obj
       [("data", JVal.obj [("systemMessage", JVal.obj [("schema", JVal.obj
         [("kind", JVal.str "schema"), ("result", JVal.str "big"),
          ("datasources", JVal.arr [])])])])])])])]
    [("debugInfo", JVal.obj [("response", JVal.obj
       [("data", JVal.obj [("systemMessage", JVal.obj [("schema", JVal.obj
         [("kind", JVal.str "schema"), ("result", JVal.str "big"),
          ("datasources", JVal.arr [])])])])])])]
    [("response", JVal.obj [("data", JVal.obj [("systemMessage", JVal.obj
       [("schema", JVal.obj [("kind", JVal.str "schema"),
         ("result", JVal.str "big"), ("datasources", JVal.arr [])])])])])]
    [("data", JVal.obj [("systemMessage", JVal.obj [("schema", JVal.obj
       [("kind", JVal.str "schema"), ("result", JVal.str "big"),
        ("datasources", JVal.arr [])])])])]
    [("systemMessage", JVal.obj [("schema", JVal.obj [("kind", JVal.str "schema"),
       ("result", JVal.str "big"), ("datasources", JVal.arr [])])])]
    [("schema", JVal.obj [("kind", JVal.str "schema"), ("result", JVal.str "big"),
       ("datasources", JVal.arr [])])]
    [("kind", JVal.str "schema"), ("result", JVal.str "big"),
     ("datasources", JVal.arr [])]
    (JVal.str "big") (JVal.arr [])
    rfl rfl rfl rfl rfl rfl rfl rfl rfl rfl
  obtain ⟨h1, h2, h3, _⟩ := h
  exact ⟨h1.trans (by rfl), h2.symm.trans (by rfl) |>.symm.trans (by rfl), by rfl, by rfl⟩

/-- C8: `PruneAgentMessages` is total and shape-tolerant: it returns a list
of the same length for every input; elements that are not objects with a
nested object-valued `message`, and nodes that are neither user messages
nor of type `"system"`, are unchanged; and a missing or wrong-shaped
segment along `debugInfo -> response -> data -> systemMessage` stops the
pruning of that node, leaving only the earlier deletions applied. -/
theorem pruneAgentMessages_shape_tolerant :
    (∀ l : List JVal, (PruneAgentMessages l).length = l.length)
    ∧ (∀ m : JVal, (∀ fs : Obj, m ≠ .obj fs) → pruneNode m = m)
    ∧ (∀ fs : Obj, getObj fs "message" = none → pruneNode (.obj fs) = .obj fs)
    ∧ (∀ fs body, getObj fs "message" = some body →
        (getKey body "userMessage").isSome = false → isSystemType fs = false →
        pruneNode (.obj fs) = .obj fs)
    ∧ (∀ fs body, getObj fs "message" = some body →
        (getKey body "userMessage").isSome = false → isSystemType fs = true →
        getObj (delKey body "systemMessage") "debugInfo" = none →
        pruneNode (.obj fs)
          = .obj (setKey fs "message" (.obj (delKey body "systemMessage"))))
    ∧ (∀ fs body di, getObj fs "message" = some body →
        (getKey body "userMessage").isSome = false → isSystemType fs = true →
        getObj (delKey body "systemMessage") "debugInfo" = some di →
        (getObj (delKey di "request") "response" = none
         ∨ ∃ resp, getObj (delKey di "request") "response" = some resp
            ∧ (getObj resp "data" = none
               ∨ ∃ rdata, getObj resp "data" = some rdata
                  ∧ getObj rdata "systemMessage" = none)) →
        pruneNode (.obj fs)
          = .obj (setKey fs "message"
              (.obj (setKey (delKey body "systemMessage") "debugInfo"
                (.obj (delKey di "request")))))) := by
  refine ⟨?_, ?_, ?_, ?_, ?_, ?_⟩
  · intro l; simp [PruneAgentMessages]
  · intro m h
    cases m with
    | obj fs => exact absurd rfl (h fs)
    | null => rfl
    | bool b => rfl
    | num n => rfl
    | str s => rfl
    | arr l => rfl
  · intro fs hm; exact pruneNode_no_message hm
  · intro fs body hm hu ht; exact pruneNode_other hm hu ht
  · intro fs body hm hu ht hd
    rw [pruneNode_system hm hu ht, pruneSystemBody_of_none hd]
  · intro fs body di hm hu ht hd hstop
    rw [pruneNode_system hm hu ht, pruneSystemBody_of_some hd,
        pruneDebugInfo_of_stop hstop]

/-- Witness for C8: concrete non-object, message-less, unknown-type and
path-stopped nodes, each evaluated. -/
theorem pruneAgentMessages_shape_tolerant_witness :
    (PruneAgentMessages [JVal.str "x"]).length = 1
    ∧ pruneNode (JVal.str "x") = JVal.str "x"
    ∧ pruneNode (.obj [("id", JVal.num 1)]) = .obj [("id", JVal.num 1)]
    ∧ pruneNode (.obj [("type", JVal.str "other"),
          ("message", JVal.obj [("a", JVal.num 1)])])
        = .obj [("type", JVal.str "other"), ("message", JVal.obj [("a", JVal.num 1)])]
    ∧ pruneNode (.obj [("type", JVal.str "system"),
          ("message", JVal.obj [("systemMessage", JVal.str "s"), ("x", JVal.num 1)])])
        = .obj [("type", JVal.str "system"), ("message", JVal.obj [("x", JVal.num 1)])]
    ∧ pruneNode (.obj [("type", JVal.str "system"),
          ("message", JVal.obj [("debugInfo",
            JVal.obj [("request", JVal.str "r"), ("other", JVal.num 2)])])])
        = .obj [("type", JVal.str "system"),
            ("message", JVal.obj [("debugInfo", JVal.obj [("other", JVal.num 2)])])] := by
  obtain ⟨h1, h2, h3, h4, h5, h6⟩ := pruneAgentMessages_shape_tolerant
  refine ⟨h1 [JVal.str "x"], h2 (JVal.str "x") (fun fs h => nomatch h), h3 _ rfl,
    h4 [("type", JVal.str "other"), ("message", JVal.obj [("a", JVal.num 1)])]
      [("a", JVal.num 1)] rfl rfl rfl, ?_, ?_⟩
  · exact (h5 [("type", JVal.str "system"),
        ("message", JVal.obj [("systemMessage", JVal.str "s"), ("x", JVal.num 1)])]
      [("systemMessage", JVal.str "s"), ("x", JVal.num 1)] rfl rfl rfl rfl).trans (by rfl)
  · exact (h6 [("type", JVal.str "system"),
        ("message", JVal.obj [("debugInfo",
          JVal.obj [("request", JVal.str "r"), ("other", JVal.num 2)])])]
      [("debugInfo", JVal.obj [("request", JVal.str "r"), ("other", JVal.num 2)])]
      [("request", JVal.str "r"), ("other", JVal.num 2)]
      rfl rfl rfl rfl (Or.inl rfl)).trans (by rfl)

theorem pruneDebugInfo_request_none (di : Obj) :
    getKey (pruneDebugInfo di) "request" = none := by
  cases hr : getObj (delKey di "request") "response" with
  | none => rw [pruneDebugInfo_of_stop (Or.inl hr), getKey_delKey_self]
  | some resp =>
    cases hd : getObj resp "data" with
    | none =>
      rw [pruneDebugInfo_of_stop (Or.inr ⟨resp, hr, Or.inl hd⟩), getKey_delKey_self]
    | some rdata =>
      cases hs : getObj rdata "systemMessage" with
      | none =>
        rw [pruneDebugInfo_of_stop (Or.inr ⟨resp, hr, Or.inr ⟨rdata, hd, hs⟩⟩),
            getKey_delKey_self]
      | some sys =>
        rw [pruneDebugInfo_of_path hr hd hs, getKey_setKey_ne _ _ (by decide),
            getKey_delKey_self]

/-- C10: for every system-type message node whose body holds an
object-valued `debugInfo`, the transform also deletes the `request` key
from that `debugInfo` object — whether or not the rest of the
`response -> data -> systemMessage` path is present and well-shaped. -/
theorem pruneNode_deletes_debugInfo_request {fs body di : Obj}
    (hm : getObj fs "message" = some body)
    (hu : (getKey body "userMessage").isSome = false)
    (ht : isSystemType fs = true)
    (hd : getObj (delKey body "systemMessage") "debugInfo" = some di) :
    getPath? (pruneNode (.obj fs)) ["message", "debugInfo"]
      = some (.obj (pruneDebugInfo di))
    ∧ getKey (pruneDebugInfo di) "request" = none := by
  constructor
  · rw [pruneNode_system hm hu ht,
        getPath_cons (getKey_setKey_of_some _ (getKey_of_getObj_some hm)) _,
        pruneSystemBody_of_some hd,
        getPath_cons (getKey_setKey_of_some _ (getKey_of_getObj_some hd)) _]
    rfl
  · exact pruneDebugInfo_request_none di

/-- Witness for C10 on a concrete system message whose `debugInfo` holds a
`request` but no `response` path. -/
theorem pruneNode_deletes_debugInfo_request_witness :
    getPath? (pruneNode (.obj [("type", JVal.str "system"),
        ("message", JVal.obj [("debugInfo",
          JVal.obj [("request", JVal.str "q"), ("note", JVal.num 7)])])]))
        ["message", "debugInfo"]
      = some (.obj [("note", JVal.num 7)])
    ∧ getKey ([("note", JVal.num 7)] : Obj) "request" = none := by
  have h := @pruneNode_deletes_debugInfo_request
    [("type", JVal.str "system"),
     ("message", JVal.obj [("debugInfo",
       JVal.obj [("request", JVal.str "q"), ("note", JVal.num 7)])])]
    [("debugInfo", JVal.obj [("request", JVal.str "q"), ("note", JVal.num 7)])]
    [("request", JVal.str "q"), ("note", JVal.num 7)]
    rfl rfl rfl rfl
  exact ⟨h.1.trans (by rfl), by rfl⟩

/-! ### The sync pipeline (`runSync`, `main.go` lines 216-289, and callees)

Network calls are supplied by an explicit environment `Env`.  The worker
pool delivers per-principal batches to the results channel in a
nondeterministic order; the properties proved below (submission counts,
batch contents for runs with a single contributing principal, error
surfacing) do not depend on that order, so the aggregate outcome of a run
is computed with principals processed in discovery order.  The pool's
scheduling itself is modelled separately by `PoolStep` further down. -/

/-- One row of the user-discovery query (`User`, `main.go` lines 32-35). -/
structure User where
  id : Int
  email : String

/-- A conversation record (`Conversation`, `main.go` lines 37-47); the
`sources`, `messages` and `conversation_agent` fields are untyped JSON
(`interface{}` in Go), decoded as `JVal`. -/
structure Conversation where
  id : String
  user_id : String
  agent_id : String
  name : String
  sources : JVal
  created_at : String
  updated_at : String
  messages : JVal
  conversation_agent : JVal

/-- The network environment of one run: the result of every outbound call
the pipeline makes — Looker admin login, user discovery, sudo login (by
user id), conversation listing (by token and mode), conversation detail
(by token and id), the GCP token lookup, and the HTTP status returned by
the BigQuery load-job endpoint. -/
structure Env where
  login : Except String String
  searchUsers : String → Except String (List User)
  sudoLogin : String → String → Except String String
  listConvs : String → String → Except String (List Conversation)
  detail : String → String → Except String Conversation
  gcpToken : Option String
  loadStatus : Nat

/-- `getConversationDetail` (`main.go` lines 472-496): fetch one record
and prune its message list when it decoded to a JSON array. -/
def getConversationDetail (env : Env) (token id : String) :
    Except String Conversation :=
  match env.detail token id with
  | .error e => .error e
  | .ok d =>
    .ok { d with messages := match d.messages with
          | .arr l => .arr (PruneAgentMessages l)
          | v => v }

/-- The body of `processUser`'s detail loop (`main.go` lines 386-393):
a failed detail fetch is logged and skipped, a successful one is appended. -/
def detailStep (env : Env) (userToken : String)
    (acc : List Conversation) (c : Conversation) : List Conversation :=
  match getConversationDetail env userToken c.id with
  | .error _ => acc
  | .ok d => acc ++ [d]

/-- `processUser` (`main.go` lines 366-396): sudo as the user, list their
conversations (empty list is returned as success), then fetch details one
at a time, skipping (only) records whose detail fetch fails.  (The Go
function also receives the `User` value, used for logging only.) -/
def processUser (env : Env) (adminToken mode userID : String) :
    Except String (List Conversation) :=
  match env.sudoLogin adminToken userID with
  | .error e => .error ("sudo failed: " ++ e)
  | .ok userToken =>
    match env.listConvs userToken mode with
    | .error e => .error ("search failed: " ++ e)
    | .ok conversations =>
      if conversations.isEmpty then .ok []
      else .ok (conversations.foldl (detailStep env userToken) [])

/-- The observable outcome of `insertToBigQuery` (`main.go` lines
499-587), with the drained channel contents passed explicitly: how many
load jobs were submitted, the rows contained in a submitted job, the
returned row total, and the returned error, if any. -/
structure BQOutcome where
  submissions : Nat
  sent : List Conversation
  totalRows : Nat
  err : Option String

/-- `insertToBigQuery`: fetch a GCP token (failing the call when none is
available), serialize all drained batches to one NDJSON payload, skip the
job entirely (without error) when there are zero rows, and otherwise
submit exactly one load job whose failure is reported as an error. -/
def insertToBigQuery (env : Env) (batches : List (List Conversation)) : BQOutcome :=
  match env.gcpToken with
  | none => ⟨0, [], 0, some "failed to get GCP token"⟩
  | some _ =>
    let rows := batches.flatten
    if rows.length = 0 then ⟨0, [], 0, none⟩
    else if env.loadStatus = 200 then ⟨1, rows, rows.length, none⟩
    else ⟨1, rows, rows.length, some "BQ job creation failed"⟩

/-- The non-empty batches forwarded to the results channel: `runSync`'s
worker body (`main.go` lines 240-253) drops failed principals and empty
batches. -/
def collectBatches (env : Env) (adminToken mode : String) (users : List User) :
    List (List Conversation) :=
  users.filterMap (fun u =>
    match processUser env adminToken mode (toString u.id) with
    | .error _ => none
    | .ok convs => if convs.isEmpty then none else some convs)

/-- The observable outcome of one `runSync`: the function's return value
(`none` = returned `nil`), the number of load-job submissions, the records
contained in a submitted job, the load error that was logged (but not
returned, `main.go` lines 279-283), and the conversation total that is
logged at the end. -/
structure RunOutcome where
  result : Option String
  submissions : Nat
  loadedRecords : List Conversation
  loggedLoadError : Option String
  totalConversations : Nat

/-- `runSync` (`main.go` lines 216-289): admin login, user discovery,
per-user processing, then either a dry-run count or a single BigQuery
batch load whose error is logged but not returned. -/
def runSync (env : Env) (mode : String) (dryRun : Bool) : RunOutcome :=
  match env.login with
  | .error e => ⟨some ("failed to login as admin: " ++ e), 0, [], none, 0⟩
  | .ok adminToken =>
    match env.searchUsers adminToken with
    | .error e => ⟨some ("failed to fetch users: " ++ e), 0, [], none, 0⟩
    | .ok users =>
      let batches := collectBatches env adminToken mode users
      if dryRun then
        ⟨none, 0, [], none, (batches.map List.length).sum⟩
      else
        let bq := insertToBigQuery env batches
        ⟨none, bq.submissions, bq.sent, bq.err, bq.totalRows⟩

theorem insertToBigQuery_submissions_le_one (env : Env)
    (batches : List (List Conversation)) :
    (insertToBigQuery env batches).submissions ≤ 1 := by
  unfold insertToBigQuery
  cases env.gcpToken with
  | none => exact Nat.zero_le 1
  | some tok =>
    by_cases h : (batches.flatten).length = 0
    · simp [h]
    · have h' : (List.map List.length batches).sum ≠ 0 := by
        rw [← List.length_flatten]; exact h
      by_cases h2 : env.loadStatus = 200 <;> simp [h, h', h2]

/-- C1: for every run, the number of bulk-load submissions is at most one;
it is 0 under dry-run; it is 0 when the total collected record count is
zero, and that case is not an error; and it is exactly 1 otherwise
(live run, records present, token provider yields a credential). -/
theorem runSync_submission_count (env : Env) (mode : String) (dryRun : Bool) :
    (runSync env mode dryRun).submissions ≤ 1
    ∧ (dryRun = true → (runSync env mode dryRun).submissions = 0)
    ∧ (∀ adminToken users, env.login = .ok adminToken →
        env.searchUsers adminToken = .ok users →
        (collectBatches env adminToken mode users).flatten = [] →
        (runSync env mode dryRun).submissions = 0
        ∧ (runSync env mode dryRun).result = none)
    ∧ (∀ adminToken users, env.login = .ok adminToken →
        env.searchUsers adminToken = .ok users →
        dryRun = false →
        (collectBatches env adminToken mode users).flatten ≠ [] →
        env.gcpToken.isSome = true →
        (runSync env mode dryRun).submissions = 1) := by
  refine ⟨?_, ?_, ?_, ?_⟩
  · cases hl : env.login with
    | error e => simp [runSync, hl]
    | ok adminToken =>
      cases hs : env.searchUsers adminToken with
      | error e => simp [runSync, hl, hs]
      | ok users =>
        cases dryRun with
        | true => simp [runSync, hl, hs]
        | false =>
          simp only [runSync, hl, hs, Bool.false_eq_true, if_false]
          exact insertToBigQuery_submissions_le_one env _
  · intro hdry
    subst hdry
    cases hl : env.login with
    | error e => simp [runSync, hl]
    | ok adminToken =>
      cases hs : env.searchUsers adminToken with
      | error e => simp [runSync, hl, hs]
      | ok users => simp [runSync, hl, hs]
  · intro adminToken users hl hs hempty
    have h0 : (collectBatches env adminToken mode users).flatten.length = 0 := by
      rw [hempty]; rfl
    cases dryRun with
    | true => exact ⟨by simp [runSync, hl, hs], by simp [runSync, hl, hs]⟩
    | false =>
      cases hg : env.gcpToken with
      | none =>
        exact ⟨by simp [runSync, insertToBigQuery, hl, hs, hg],
          by simp [runSync, insertToBigQuery, hl, hs, hg]⟩
      | some tok =>
        exact ⟨by simp [runSync, insertToBigQuery, hl, hs, hg, h0],
          by simp [runSync, insertToBigQuery, hl, hs, hg, h0]⟩
  · intro adminToken users hl hs hdry hne htok
    subst hdry
    cases hg : env.gcpToken with
    | none => rw [hg] at htok; simp at htok
    | some tok =>
      have hlen : (collectBatches env adminToken mode users).flatten.length ≠ 0 := by
        intro h0
        exact hne (List.length_eq_zero.mp h0)
      have hlen' : (List.map List.length (collectBatches env adminToken mode users)).sum
          ≠ 0 := by
        rw [← List.length_flatten]; exact hlen
      by_cases h2 : env.loadStatus = 200 <;>
        simp [runSync, insertToBigQuery, hl, hs, hg, hlen', h2]

/-! ### Concrete run environments for the scenario claims and witnesses -/

/-- A detail record of principal C: its message list carries a user message
with a `debugInfo` that the in-pipeline transform removes. -/
def convC1 : Conversation :=
  ⟨"c1", "3", "agent", "first", .null, "2026-01-01", "2026-01-01",
    .arr [.obj [("message", .obj [("userMessage", JVal.str "hi"),
      ("debugInfo", JVal.str "raw")])]], .null⟩

/-- `convC1` as it appears after the in-pipeline prune. -/
def convC1Pruned : Conversation :=
  ⟨"c1", "3", "agent", "first", .null, "2026-01-01", "2026-01-01",
    .arr [.obj [("message", .obj [("userMessage", JVal.str "hi")])]], .null⟩

/-- A second detail record of principal C, with no decoded message array. -/
def convC2 : Conversation :=
  ⟨"c2", "3", "agent", "second", .null, "2026-01-02", "2026-01-02", .null, .null⟩

/-- A record whose detail fetch fails in `envDetailFail`. -/
def convBad : Conversation :=
  ⟨"bad", "3", "agent", "broken", .null, "2026-01-03", "2026-01-03", .null, .null⟩

/-- The C2 scenario: principals A (id 1), B (id 2) and C (id 3); A's
listing call fails, B lists zero records, C lists two records whose detail
fetches succeed; token provider and load-job endpoint both work. -/
def envScenario : Env where
  login := .ok "admin-token"
  searchUsers := fun _ =>
    .ok [⟨1, "a@example.com"⟩, ⟨2, "b@example.com"⟩, ⟨3, "c@example.com"⟩]
  sudoLogin := fun _ uid => .ok ("tok-" ++ uid)
  listConvs := fun tok _ =>
    if tok = "tok-1" then .error "search failed with status 500"
    else if tok = "tok-2" then .ok []
    else .ok [convC1, convC2]
  detail := fun tok id =>
    if tok = "tok-3" then
      (if id = "c1" then .ok convC1
       else if id = "c2" then .ok convC2
       else .error "not found")
    else .error "not found"
  gcpToken := some "gcp-token"
  loadStatus := 200

/-- One principal, one record, discovery and load endpoint healthy. -/
def envOneRecord : Env where
  login := .ok "admin-token"
  searchUsers := fun _ => .ok [⟨3, "c@example.com"⟩]
  sudoLogin := fun _ uid => .ok ("tok-" ++ uid)
  listConvs := fun _ _ => .ok [convC2]
  detail := fun _ id => if id = "c2" then .ok convC2 else .error "not found"
  gcpToken := some "gcp-token"
  loadStatus := 200

/-- Discovery returns no principals at all. -/
def envEmpty : Env where
  login := .ok "admin-token"
  searchUsers := fun _ => .ok []
  sudoLogin := fun _ _ => .error "unreachable"
  listConvs := fun _ _ => .error "unreachable"
  detail := fun _ _ => .error "unreachable"
  gcpToken := some "gcp-token"
  loadStatus := 200

/-- Like `envOneRecord`, but the load-job endpoint answers 500. -/
def envLoadFail : Env where
  login := .ok "admin-token"
  searchUsers := fun _ => .ok [⟨3, "c@example.com"⟩]
  sudoLogin := fun _ uid => .ok ("tok-" ++ uid)
  listConvs := fun _ _ => .ok [convC2]
  detail := fun _ id => if id = "c2" then .ok convC2 else .error "not found"
  gcpToken := some "gcp-token"
  loadStatus := 500

/-- Detail fetch fails for the middle one of three listed records. -/
def envDetailFail : Env where
  login := .ok "admin-token"
  searchUsers := fun _ => .ok [⟨3, "c@example.com"⟩]
  sudoLogin := fun _ uid => .ok ("tok-" ++ uid)
  listConvs := fun _ _ => .ok [convC1, convBad, convC2]
  detail := fun _ id =>
    if id = "c1" then .ok convC1
    else if id = "c2" then .ok convC2
    else .error "detail failed"
  gcpToken := some "gcp-token"
  loadStatus := 200

/-- Witness for C1: a live run with one collected record submits exactly
once; a live run with no collected records submits nothing and returns
success; a dry run submits nothing. -/
theorem runSync_submission_count_witness :
    (runSync envOneRecord "historical" false).submissions = 1
    ∧ (runSync envEmpty "daily" false).submissions = 0
    ∧ (runSync envEmpty "daily" false).result = none
    ∧ (runSync envOneRecord "historical" true).submissions = 0 := by
  have hB := runSync_submission_count envOneRecord "historical" false
  have hA := runSync_submission_count envEmpty "daily" false
  have hC := runSync_submission_count envOneRecord "historical" true
  exact ⟨hB.2.2.2 "admin-token" [⟨3, "c@example.com"⟩] rfl rfl rfl
      (fun h => nomatch h) rfl,
    (hA.2.2.1 "admin-token" [] rfl rfl rfl).1,
    (hA.2.2.1 "admin-token" [] rfl rfl rfl).2,
    hC.2.1 rfl⟩

/-- C2: in a run over three principals where A fails at listing, B returns
zero records and C returns two, the failed and the empty principal
contribute no batch and stop nothing: the run submits exactly one load job
containing exactly C's two (pruned) serialized records, completes without
error, and counts two conversations. -/
theorem runSync_error_isolation_scenario :
    (runSync envScenario "historical" false).submissions = 1
    ∧ (runSync envScenario "historical" false).loadedRecords = [convC1Pruned, convC2]
    ∧ (runSync envScenario "historical" false).result = none
    ∧ (runSync envScenario "historical" false).totalConversations = 2 :=
  ⟨rfl, rfl, rfl, rfl⟩

theorem foldl_detailStep (env : Env) (userToken : String)
    (l : List Conversation) (acc : List Conversation) :
    l.foldl (detailStep env userToken) acc
      = acc ++ l.filterMap
          (fun c => (getConversationDetail env userToken c.id).toOption) := by
  induction l generalizing acc with
  | nil => simp
  | cons x rest ih =>
    cases hx : getConversationDetail env userToken x.id with
    | error e => simp [detailStep, hx, ih, Except.toOption]
    | ok d => simp [detailStep, hx, ih, Except.toOption]

/-- C6: in `processUser`, when sudo and listing succeed, the principal's
result is (successfully) the ordered list of records whose detail fetch
succeeded: a detail-fetch failure for one record skips exactly that
record, and the remaining records are still fetched and returned. -/
theorem processUser_skips_failed_details {env : Env}
    {adminToken mode userID userToken : String} {convs : List Conversation}
    (hsudo : env.sudoLogin adminToken userID = .ok userToken)
    (hlist : env.listConvs userToken mode = .ok convs) :
    processUser env adminToken mode userID
      = .ok (convs.filterMap
          (fun c => (getConversationDetail env userToken c.id).toOption)) := by
  simp only [processUser, hsudo, hlist]
  cases h : convs.isEmpty with
  | true =>
    have : convs = [] := List.isEmpty_iff.mp h
    subst this
    simp
  | false =>
    simp only [h, Bool.false_eq_true, if_false]
    rw [foldl_detailStep]
    simp

/-- Witness for C6: of three listed records, the middle detail fetch fails
and exactly that record is missing from the principal's returned batch. -/
theorem processUser_skips_failed_details_witness :
    processUser envDetailFail "admin-token" "historical" "3"
      = .ok [convC1Pruned, convC2] :=
  (processUser_skips_failed_details rfl rfl).trans (by rfl)

/-- C7 counterexample: with one collected record and a load-job endpoint
answering 500, the submission fails and the failure is logged, yet
`runSync` returns success — the load failure is not the run's result. -/
theorem runSync_load_failure_counterexample :
    (runSync envLoadFail "historical" false).loggedLoadError
        = some "BQ job creation failed"
    ∧ (runSync envLoadFail "historical" false).submissions = 1
    ∧ (runSync envLoadFail "historical" false).result = none :=
  ⟨rfl, rfl, rfl⟩

/-- C7 (amended): when the load-job endpoint returns a non-success
response on a live run with collected records, the failure is logged and
the single submission is not retried or persisted elsewhere, but the
run's own result is success (`nil`) — the error is observable only via
the log. -/
theorem runSync_load_failure_logged_only {env : Env} {mode adminToken tok : String}
    {users : List User}
    (hl : env.login = .ok adminToken)
    (hs : env.searchUsers adminToken = .ok users)
    (hg : env.gcpToken = some tok)
    (hne : (collectBatches env adminToken mode users).flatten ≠ [])
    (hstatus : env.loadStatus ≠ 200) :
    (runSync env mode false).result = none
    ∧ (runSync env mode false).submissions = 1
    ∧ (runSync env mode false).loggedLoadError = some "BQ job creation failed" := by
  have hlen : (List.map List.length (collectBatches env adminToken mode users)).sum
      ≠ 0 := by
    rw [← List.length_flatten]
    intro h0
    exact hne (List.length_eq_zero.mp h0)
  refine ⟨?_, ?_, ?_⟩ <;>
    simp [runSync, insertToBigQuery, hl, hs, hg, hlen, hstatus]

/-- Witness for the amended C7 at the concrete failing environment. -/
theorem runSync_load_failure_logged_only_witness :
    (runSync envLoadFail "historical" false).result = none
    ∧ (runSync envLoadFail "historical" false).submissions = 1
    ∧ (runSync envLoadFail "historical" false).loggedLoadError
        = some "BQ job creation failed" :=
  runSync_load_failure_logged_only rfl rfl rfl (fun h => nomatch h) (by decide)

/-! ### The worker pool itself (`runSync`, `main.go` lines 232-266)

`WorkerPoolSize` workers range over a channel that is pre-loaded with
every discovered principal and then closed; a wait-group closes the
results channel once all workers exit.  The scheduling is modelled as a
small-step relation: a state holds the remaining channel contents (a
channel receive removes the head atomically, so no principal can be
delivered twice), one slot per worker (the principal it currently
processes, if any), and the multiset of principals handed to
`processUser` so far. -/

structure PoolState where
  queue : List User
  working : List (Option User)
  processed : Multiset User

/-- One scheduling step: an idle worker receives the principal at the
head of the channel, or a busy worker finishes its principal, which is
then recorded as processed. -/
inductive PoolStep : PoolState → PoolState → Prop
  | recv (u : User) (rest : List User) (working : List (Option User))
      (processed : Multiset User) (i : Nat) (hi : working.get? i = some none) :
      PoolStep ⟨u :: rest, working, processed⟩
        ⟨rest, working.set i (some u), processed⟩
  | finish (queue : List User) (working : List (Option User))
      (processed : Multiset User) (i : Nat) (u : User)
      (hi : working.get? i = some (some u)) :
      PoolStep ⟨queue, working, processed⟩
        ⟨queue, working.set i none, processed + {u}⟩

/-- Initial state of a run with pool size `w`: every discovered principal
queued, all workers idle, nothing processed. -/
def poolInit (users : List User) (w : Nat) : PoolState :=
  ⟨users, List.replicate w none, 0⟩

/-- The principals currently held by workers, as a multiset. -/
def inFlight (working : List (Option User)) : Multiset User :=
  ↑(working.filterMap id)

/-- Conservation: queued, in-flight and processed principals together are
exactly the discovered ones. -/
def PoolInv (users : List User) (s : PoolState) : Prop :=
  ↑s.queue + inFlight s.working + s.processed = (↑users : Multiset User)

theorem inFlight_set_some (working : List (Option User)) (i : Nat) (u : User)
    (h : working.get? i = some none) :
    inFlight (working.set i (some u)) = inFlight working + {u} := by
  induction working generalizing i with
  | nil => simp at h
  | cons o rest ih =>
    cases i with
    | zero =>
      have ho : o = none := Option.some.inj h
      subst ho
      show (↑(u :: rest.filterMap id) : Multiset User) = ↑(rest.filterMap id) + {u}
      rw [← Multiset.cons_coe, ← Multiset.singleton_add, add_comm]
    | succ n =>
      have h' : rest.get? n = some none := h
      cases o with
      | none =>
        show inFlight (rest.set n (some u)) = inFlight rest + {u}
        exact ih n h'
      | some v =>
        have e := ih n h'
        unfold inFlight at e
        show (↑(v :: (rest.set n (some u)).filterMap id) : Multiset User)
          = ↑(v :: rest.filterMap id) + {u}
        rw [← Multiset.cons_coe, ← Multiset.cons_coe, ← Multiset.singleton_add,
          ← Multiset.singleton_add, e, add_assoc]

theorem inFlight_set_none (working : List (Option User)) (i : Nat) (u : User)
    (h : working.get? i = some (some u)) :
    inFlight working = inFlight (working.set i none) + {u} := by
  induction working generalizing i with
  | nil => simp at h
  | cons o rest ih =>
    cases i with
    | zero =>
      have ho : o = some u := Option.some.inj h
      subst ho
      show (↑(u :: rest.filterMap id) : Multiset User) = ↑(rest.filterMap id) + {u}
      rw [← Multiset.cons_coe, ← Multiset.singleton_add, add_comm]
    | succ n =>
      have h' : rest.get? n = some (some u) := h
      cases o with
      | none =>
        show inFlight rest = inFlight (rest.set n none) + {u}
        exact ih n h'
      | some v =>
        have e := ih n h'
        unfold inFlight at e
        show (↑(v :: rest.filterMap id) : Multiset User)
          = ↑(v :: (rest.set n none).filterMap id) + {u}
        rw [← Multiset.cons_coe, ← Multiset.cons_coe, ← Multiset.singleton_add,
          ← Multiset.singleton_add, e, add_assoc]

theorem poolStep_inv {users : List User} {s t : PoolState}
    (h : PoolStep s t) (hs : PoolInv users s) : PoolInv users t := by
  cases h with
  | recv u rest working processed i hi =>
    unfold PoolInv at hs ⊢
    rw [← hs]
    show ↑rest + inFlight (working.set i (some u)) + processed
      = ↑(u :: rest) + inFlight working + processed
    rw [inFlight_set_some working i u hi, ← Multiset.cons_coe,
      ← Multiset.singleton_add]
    abel
  | finish queue working processed i u hi =>
    unfold PoolInv at hs ⊢
    rw [← hs]
    show ↑queue + inFlight (working.set i none) + (processed + {u})
      = ↑queue + inFlight working + processed
    rw [inFlight_set_none working i u hi]
    abel

theorem pool_reach_inv {users : List User} {w : Nat} {s : PoolState}
    (h : Relation.ReflTransGen PoolStep (poolInit users w) s) :
    PoolInv users s := by
  induction h with
  | refl =>
    unfold PoolInv poolInit inFlight
    have hrep : (List.replicate w (none : Option User)).filterMap id = [] := by
      induction w with
      | zero => rfl
      | succ n ih => simp [List.replicate_succ, ih]
    rw [hrep]
    simp
  | tail hab hbc ih => exact poolStep_inv hbc ih

/-- C9: for every principal list and every pool size, any completed
execution of the worker pool — the work queue drained and every worker
idle again — has handed each discovered principal to the per-principal
fetcher exactly once: the multiset of processed principals equals the
discovered list; none is duplicated or omitted. -/
theorem workerPool_each_principal_once (users : List User) (w : Nat)
    (s : PoolState)
    (hreach : Relation.ReflTransGen PoolStep (poolInit users w) s)
    (hqueue : s.queue = [])
    (hidle : ∀ o ∈ s.working, o = none) :
    s.processed = (↑users : Multiset User) := by
  have hinv := pool_reach_inv hreach
  unfold PoolInv at hinv
  rw [hqueue] at hinv
  have hfl : s.working.filterMap id = [] := by
    rw [List.filterMap_eq_nil_iff]
    intro o ho
    rw [hidle o ho]
    rfl
  unfold inFlight at hinv
  rw [hfl] at hinv
  simpa using hinv

/-- The principal list of the C9 witness execution. -/
def poolUsers : List User :=
  [⟨1, "a@example.com"⟩, ⟨2, "b@example.com"⟩, ⟨3, "c@example.com"⟩]

/-- Witness for C9: an explicit interleaved execution of a two-worker pool
over three principals processes exactly the three principals. -/
theorem workerPool_each_principal_once_witness :
    ((0 : Multiset User) + {(⟨1, "a@example.com"⟩ : User)}
        + {(⟨2, "b@example.com"⟩ : User)} + {(⟨3, "c@example.com"⟩ : User)})
      = (↑poolUsers : Multiset User) := by
  have s1 : PoolStep (poolInit poolUsers 2)
      ⟨[⟨2, "b@example.com"⟩, ⟨3, "c@example.com"⟩],
        [some ⟨1, "a@example.com"⟩, none], 0⟩ :=
    PoolStep.recv ⟨1, "a@example.com"⟩ [⟨2, "b@example.com"⟩, ⟨3, "c@example.com"⟩]
      [none, none] 0 0 rfl
  have s2 : PoolStep
      ⟨[⟨2, "b@example.com"⟩, ⟨3, "c@example.com"⟩],
        [some ⟨1, "a@example.com"⟩, none], 0⟩
      ⟨[⟨3, "c@example.com"⟩],
        [some ⟨1, "a@example.com"⟩, some ⟨2, "b@example.com"⟩], 0⟩ :=
    PoolStep.recv ⟨2, "b@example.com"⟩ [⟨3, "c@example.com"⟩]
      [some ⟨1, "a@example.com"⟩, none] 0 1 rfl
  have s3 : PoolStep
      ⟨[⟨3, "c@example.com"⟩],
        [some ⟨1, "a@example.com"⟩, some ⟨2, "b@example.com"⟩], 0⟩
      ⟨[⟨3, "c@example.com"⟩], [none, some ⟨2, "b@example.com"⟩],
        0 + {⟨1, "a@example.com"⟩}⟩ :=
    PoolStep.finish [⟨3, "c@example.com"⟩]
      [some ⟨1, "a@example.com"⟩, some ⟨2, "b@example.com"⟩] 0 0
      ⟨1, "a@example.com"⟩ rfl
  have s4 : PoolStep
      ⟨[⟨3, "c@example.com"⟩], [none, some ⟨2, "b@example.com"⟩],
        0 + {⟨1, "a@example.com"⟩}⟩
      ⟨[], [some ⟨3, "c@example.com"⟩, some ⟨2, "b@example.com"⟩],
        0 + {⟨1, "a@example.com"⟩}⟩ :=
    PoolStep.recv ⟨3, "c@example.com"⟩ [] [none, some ⟨2, "b@example.com"⟩]
      (0 + {⟨1, "a@example.com"⟩}) 0 rfl
  have s5 : PoolStep
      ⟨[], [some ⟨3, "c@example.com"⟩, some ⟨2, "b@example.com"⟩],
        0 + {⟨1, "a@example.com"⟩}⟩
      ⟨[], [some ⟨3, "c@example.com"⟩, none],
        0 + {⟨1, "a@example.com"⟩} + {⟨2, "b@example.com"⟩}⟩ :=
    PoolStep.finish [] [some ⟨3, "c@example.com"⟩, some ⟨2, "b@example.com"⟩]
      (0 + {⟨1, "a@example.com"⟩}) 1 ⟨2, "b@example.com"⟩ rfl
  have s6 : PoolStep
      ⟨[], [some ⟨3, "c@example.com"⟩, none],
        0 + {⟨1, "a@example.com"⟩} + {⟨2, "b@example.com"⟩}⟩
      ⟨[], [none, none],
        0 + {⟨1, "a@example.com"⟩} + {⟨2, "b@example.com"⟩}
          + {⟨3, "c@example.com"⟩}⟩ :=
    PoolStep.finish [] [some ⟨3, "c@example.com"⟩, none]
      (0 + {⟨1, "a@example.com"⟩} + {⟨2, "b@example.com"⟩}) 0
      ⟨3, "c@example.com"⟩ rfl
  have hreach : Relation.ReflTransGen PoolStep (poolInit poolUsers 2)
      ⟨[], [none, none],
        0 + {⟨1, "a@example.com"⟩} + {⟨2, "b@example.com"⟩}
          + {⟨3, "c@example.com"⟩}⟩ :=
    Relation.ReflTransGen.tail
      (Relation.ReflTransGen.tail
        (Relation.ReflTransGen.tail
          (Relation.ReflTransGen.tail
            (Relation.ReflTransGen.tail
              (Relation.ReflTransGen.tail Relation.ReflTransGen.refl s1) s2) s3)
            s4) s5) s6
  exact workerPool_each_principal_once poolUsers 2 _ hreach rfl
    (by intro o ho; simpa using ho)

end CAObs
